import Mathlib

/-!
Shallow embedding of the simulation kernel of `src/space_shooter.js`
(the Galaga-style arcade shooter; `src/unnamed/part_000` is an earlier
near-duplicate of the same program without BossEnemy).

Numbers are modelled as `ℚ` (the JS code computes with IEEE doubles on
small decimal constants; all constants appearing in the claims are exact
rationals).  Each JS class becomes a record; `instanceof` checks become a
variant tag.  Stateful methods become pure functions returning the new
state together with their emitted effects (queued removal, fired
projectile).
-/

/-- Variant tag, standing for the JS class of an entity
(`instanceof` dispatch in the collision handler). -/
inductive Variant where
  | player
  | projectile
  | enemy
  | bossEnemy
deriving DecidableEq

/-- A 2D vector, as used for `position` and `velocity`. -/
structure Vec2 where
  x : ℚ
  y : ℚ
deriving DecidableEq

/-- Width/height record, as used for `size`. -/
structure Size where
  width : ℚ
  height : ℚ
deriving DecidableEq

/-- One entity (JS class `Body` and its subclasses).  The fields after
`health` belong to particular subclasses: `speed` is set by
`Projectile`/`Enemy`/`BossEnemy`/`Player`, and the controller fields,
`time_since_fired` and `diag_speed` belong to `Player` only (the code of
the other variants never reads them).  `diag_speed` is set by the Player
constructor to `speed * Math.cos(PI/4)`; being irrational, it is carried
here as an instance field, exactly as in the JS object. -/
structure Body where
  variant : Variant
  position : Vec2 := ⟨0, 0⟩
  velocity : Vec2 := ⟨0, 0⟩
  size : Size := ⟨10, 10⟩
  health : ℚ := 100
  speed : ℚ := 0
  move_x : ℚ := 0
  move_y : ℚ := 0
  action_1 : Bool := false
  time_since_fired : ℚ := 0
  diag_speed : ℚ := 0
deriving DecidableEq

/-- Value of `config.canvas_size.width`. -/
def canvas_width : ℚ := 300

/-- Value of `config.canvas_size.height`. -/
def canvas_height : ℚ := 500

/-- Value of `config.update_rate.seconds` (`1 / config.update_rate.fps`). -/
def update_rate_seconds : ℚ := 1 / 60

/-- The screen-clipping idiom `Math.min(Math.max(0, v), hi)` used at the
end of every variant's `update`. -/
def clip (v hi : ℚ) : ℚ := min (max 0 v) hi

/-- Method `Body.isDead`: `health <= 0`. -/
def Body.isDead (b : Body) : Bool := decide (b.health ≤ 0)

/-- Method `Body.update` (the `super.update(delta_time)` call):
advance position by `delta_time * velocity`. -/
def baseMove (dt : ℚ) (pos vel : Vec2) : Vec2 :=
  ⟨pos.x + dt * vel.x, pos.y + dt * vel.y⟩

/-- Result of one entity `update(dt)` call: the mutated entity, whether
`remove()` was invoked on it (pushing its id on the removal queue), and
the spawn position of a `new Projectile`, if one was fired. -/
structure UpdateResult where
  body : Body
  removed : Bool
  fired : Option Vec2
deriving DecidableEq

/-- The vertical move `this.position.y -= this.speed` of
`Projectile.update` followed by `super.update`, before clipping. -/
def projectileRawPos (dt : ℚ) (b : Body) : Vec2 :=
  baseMove dt ⟨b.position.x, b.position.y - b.speed⟩ b.velocity

/-- Method `Projectile.update`: move up by `speed`, self-remove when
`y <= 0`, apply the base velocity move, then clip to the screen. -/
def projectileUpdate (dt : ℚ) (b : Body) : UpdateResult :=
  let removed : Bool := decide (b.position.y - b.speed ≤ 0)
  let p := projectileRawPos dt b
  ⟨{ b with position := ⟨clip p.x canvas_width, clip p.y canvas_height⟩ },
   removed, none⟩

/-- The vertical move `this.position.y += this.speed` of `Enemy.update`
followed by `super.update`, before clipping. -/
def enemyRawPos (dt : ℚ) (b : Body) : Vec2 :=
  baseMove dt ⟨b.position.x, b.position.y + b.speed⟩ b.velocity

/-- Method `Enemy.update`: move down by `speed`, self-remove when
`y >= canvas height`, apply the base velocity move, then clip. -/
def enemyUpdate (dt : ℚ) (b : Body) : UpdateResult :=
  let removed : Bool := decide (canvas_height ≤ b.position.y + b.speed)
  let p := enemyRawPos dt b
  ⟨{ b with position := ⟨clip p.x canvas_width, clip p.y canvas_height⟩ },
   removed, none⟩

/-- The vertical move of `BossEnemy.update` (textually identical to
`Enemy.update`), before clipping. -/
def bossRawPos (dt : ℚ) (b : Body) : Vec2 :=
  baseMove dt ⟨b.position.x, b.position.y + b.speed⟩ b.velocity

/-- Method `BossEnemy.update` (same body as `Enemy.update`). -/
def bossUpdate (dt : ℚ) (b : Body) : UpdateResult :=
  let removed : Bool := decide (canvas_height ≤ b.position.y + b.speed)
  let p := bossRawPos dt b
  ⟨{ b with position := ⟨clip p.x canvas_width, clip p.y canvas_height⟩ },
   removed, none⟩

/-- The movement block of `Player.update`: when both controller axes are
non-zero move by `diag_speed` on each axis, otherwise by `speed`. -/
def playerMovedPos (b : Body) : Vec2 :=
  if b.move_x ≠ 0 ∧ b.move_y ≠ 0 then
    ⟨b.position.x + b.move_x * b.diag_speed,
     b.position.y + b.move_y * b.diag_speed⟩
  else
    ⟨b.position.x + b.move_x * b.speed,
     b.position.y + b.move_y * b.speed⟩

/-- Method `Player.update`: movement block, death check (`remove()` plus
session restart, reported here as the `removed` flag), fire-cooldown
combat block (spawning a projectile at the current, post-movement
position), base velocity move, screen clip. -/
def playerUpdate (dt : ℚ) (b : Body) : UpdateResult :=
  let pos1 := playerMovedPos b
  let removed := b.isDead
  let t1 := b.time_since_fired + dt
  let fire : Bool := b.action_1 && decide ((1 : ℚ)/10 ≤ t1)
  let t2 : ℚ := if fire then 0 else t1
  let spawn : Option Vec2 := if fire then some pos1 else none
  let p := baseMove dt pos1 b.velocity
  ⟨{ b with position := ⟨clip p.x canvas_width, clip p.y canvas_height⟩,
            time_since_fired := t2 },
   removed, spawn⟩

/-- Virtual dispatch of `entity.update(delta_time)` on the entity's
class. -/
def entityUpdate (dt : ℚ) (b : Body) : UpdateResult :=
  match b.variant with
  | .player => playerUpdate dt b
  | .projectile => projectileUpdate dt b
  | .enemy => enemyUpdate dt b
  | .bossEnemy => bossUpdate dt b

/-!
Entity registry, removal queue and the collision handler
(`Collision_Handler.update` of `src/space_shooter.js`).
-/

/-- The mutable globals touched by collision resolution: the entity map
(`entities`, an array keyed by the running id, kept here as an
association list in array-index order), the pending-removal id list
(`queued_entities_for_removal`), and the two kill counters. -/
structure World where
  entities : List (ℕ × Body)
  queued : List ℕ
  enemiesKilled : ℕ
  bossesKilled : ℕ
deriving DecidableEq

/-- Lookup of `entities[id]`. -/
def findEnt (i : ℕ) : List (ℕ × Body) → Option Body
  | [] => none
  | (j, b) :: rest => if i = j then some b else findEnt i rest

/-- Health of `entities[id]` (the collision handler only reads the
health of entities it has just looked up, so the `none` default is
never exercised). -/
def healthAt (w : World) (i : ℕ) : Option ℚ :=
  (findEnt i w.entities).map Body.health

/-- In-place mutation `e.health -= d` of the entity with id `i`. -/
def damage (w : World) (i : ℕ) (d : ℚ) : World :=
  { w with entities :=
      w.entities.map fun p =>
        if p.1 = i then (p.1, { p.2 with health := p.2.health - d }) else p }

/-- Method `Body.remove`: push the id on
`queued_entities_for_removal`. -/
def bodyRemove (w : World) (i : ℕ) : World :=
  { w with queued := w.queued ++ [i] }

/-- Counter increment `enemiesKilled++`. -/
def incEnemiesKilled (w : World) : World :=
  { w with enemiesKilled := w.enemiesKilled + 1 }

/-- Counter increment `bossesKilled++`. -/
def incBossesKilled (w : World) : World :=
  { w with bossesKilled := w.bossesKilled + 1 }

/-- The axis-aligned bounding-box overlap test of
`Collision_Handler.update`, on half extents around `position`. -/
def overlaps (e1 e2 : Body) : Prop :=
  e1.position.x - e1.size.width / 2 < e2.position.x + e2.size.width / 2 ∧
  e1.position.x + e1.size.width / 2 > e2.position.x - e2.size.width / 2 ∧
  e1.position.y - e1.size.height / 2 < e2.position.y + e2.size.height / 2 ∧
  e1.position.y + e1.size.height / 2 > e2.position.y - e2.size.height / 2

instance (e1 e2 : Body) : Decidable (overlaps e1 e2) := by
  unfold overlaps; infer_instance

/-- First rule block: `e1 instanceof Player` loses 25 health against an
Enemy and 100 against a BossEnemy. -/
def rulePlayer (w : World) (i : ℕ) (e1 e2 : Body) : World :=
  if e1.variant = .player then
    let w1 := if e2.variant = .enemy then damage w i 25 else w
    if e2.variant = .bossEnemy then damage w1 i 100 else w1
  else w

/-- Second rule block: `e1 instanceof Enemy` hit by a Player or a
Projectile loses 100 health and, if dead, is queued for removal with
`enemiesKilled++`. -/
def ruleEnemy (w : World) (i : ℕ) (e1 e2 : Body) : World :=
  if e1.variant = .enemy ∧ (e2.variant = .player ∨ e2.variant = .projectile) then
    let w1 := damage w i 100
    if (healthAt w1 i).getD 0 ≤ 0 then incEnemiesKilled (bodyRemove w1 i) else w1
  else w

/-- Third rule block: `e1 instanceof BossEnemy` hit by a Projectile
loses 7 health; if dead it is queued with both kill counters bumped,
otherwise the projectile `e2` is queued (consumed). -/
def ruleBossFirst (w : World) (i j : ℕ) (e1 e2 : Body) : World :=
  if e1.variant = .bossEnemy ∧ e2.variant = .projectile then
    let w1 := damage w i 7
    if (healthAt w1 i).getD 0 ≤ 0 then
      incBossesKilled (incEnemiesKilled (bodyRemove w1 i))
    else bodyRemove w1 j
  else w

/-- Fourth rule block (a duplicate of the boss/projectile case in the
source): the BossEnemy loses a further 100 health; if dead it is queued
with both kill counters bumped; the projectile is not queued here. -/
def ruleBossSecond (w : World) (i : ℕ) (e1 e2 : Body) : World :=
  if e1.variant = .bossEnemy ∧ e2.variant = .projectile then
    let w1 := damage w i 100
    if (healthAt w1 i).getD 0 ≤ 0 then
      incBossesKilled (incEnemiesKilled (bodyRemove w1 i))
    else w1
  else w

/-- One inner-loop step of `Collision_Handler.update` for the ordered
pair of array slots `i`, `j`: skip identical slots, test overlap on the
(immutable within the scan) positions and sizes, then run the four rule
blocks in source order.  Health mutations of earlier blocks and earlier
pairs are visible to later ones, as with the live JS objects. -/
def resolvePair (w : World) (i j : ℕ) : World :=
  match findEnt i w.entities, findEnt j w.entities with
  | some e1, some e2 =>
    if i ≠ j ∧ overlaps e1 e2 then
      ruleBossSecond (ruleBossFirst (ruleEnemy (rulePlayer w i e1 e2) i e1 e2) i j e1 e2) i e1 e2
    else w
  | _, _ => w

/-- Method `Collision_Handler.update`: the double `forEach` over the
entity array (which is not structurally changed during the scan — the
rules only mutate health, push removal ids and bump counters). -/
def collisionUpdate (w : World) : World :=
  let ids := w.entities.map Prod.fst
  ids.foldl (fun w1 i => ids.foldl (fun w2 j => resolvePair w2 i j) w1) w

/-!
The end-of-tick removal flush in the global `update` function.
-/

/-- The statement `delete entities[id]` (ids are unique object keys,
so deleting the key drops every pair carrying it). -/
def deleteId (es : List (ℕ × Body)) (i : ℕ) : List (ℕ × Body) :=
  es.filter fun p => p.1 ≠ i

/-- The removal flush of the global `update`: delete every queued id
from the registry, then clear the queue. -/
def flushRemovals (w : World) : World :=
  { w with entities := w.queued.foldl deleteId w.entities, queued := [] }

/-!
The wave spawner (`Enemy_Spawner` of `src/space_shooter.js`).
-/

/-- State of `Enemy_Spawner`. -/
structure SpawnerState where
  enemies : ℕ
  time_between : ℚ
  time_since_spawn : ℚ
  bossSpawn : Bool
  bossTimer : ℕ
deriving DecidableEq

/-- The `Enemy_Spawner` constructor. -/
def mkSpawner (enemies : ℕ) (timeBetween : ℚ) : SpawnerState :=
  ⟨enemies, timeBetween, 0, false, 0⟩

/-- One entity emission descriptor: the constructor call the spawner
makes, with the speed argument (`new Enemy(2)`, `new BossEnemy(1)`,
`new BossEnemy(2)`).  The random spawn x-position is chosen inside the
constructor, not by the spawner. -/
inductive Spawn where
  | enemy (speed : ℚ)
  | boss (speed : ℚ)
deriving DecidableEq

/-- One iteration of the `for` loop in `Enemy_Spawner.update`: either a
boss pair (clearing the one-shot `bossSpawn` flag, `bossesSpawned++`
once per pair) or one regular enemy, bumping `bossTimer` and arming the
flag when the timer hits 10. -/
def spawnUnit (s : SpawnerState) : SpawnerState × List Spawn :=
  if s.bossSpawn then
    ({ s with bossSpawn := false }, [.boss 1, .boss 2])
  else
    let t := s.bossTimer + 1
    (if t = 10 then { s with bossTimer := 0, bossSpawn := true }
     else { s with bossTimer := t },
     [.enemy 2])

/-- The `for(i=0; i<this.enemies; i++)` loop of `Enemy_Spawner.update`,
threading the spawner state through `n` unit emissions. -/
def spawnWaveUnits : ℕ → SpawnerState → SpawnerState × List Spawn
  | 0, s => (s, [])
  | n + 1, s =>
    let (s1, l1) := spawnUnit s
    let (s2, l2) := spawnWaveUnits n s1
    (s2, l1 ++ l2)

/-- Method `Enemy_Spawner.update`: accumulate `delta_time`; on reaching
`time_between`, reset the timer and emit `enemies` units. -/
def spawnerUpdate (dt : ℚ) (s : SpawnerState) : SpawnerState × List Spawn :=
  let s1 := { s with time_since_spawn := s.time_since_spawn + dt }
  if s1.time_since_spawn ≥ s1.time_between then
    spawnWaveUnits s1.enemies { s1 with time_since_spawn := 0 }
  else (s1, [])

/-- Drive the spawner for `n` wave periods: each step passes
`delta_time = time_between`, so every step fires exactly one wave. -/
def runSpawner : ℕ → SpawnerState → SpawnerState × List Spawn
  | 0, s => (s, [])
  | n + 1, s =>
    let (s1, l1) := runSpawner n s
    let (s2, l2) := spawnerUpdate s1.time_between s1
    (s2, l1 ++ l2)

/-- Count of regular `Enemy` emissions in an emission list. -/
def countEnemies (l : List Spawn) : ℕ :=
  l.countP fun sp => match sp with | .enemy _ => true | .boss _ => false

/-- Count of `BossEnemy` emissions in an emission list. -/
def countBosses (l : List Spawn) : ℕ :=
  l.countP fun sp => match sp with | .enemy _ => false | .boss _ => true

/-!
The driving-clock callback (`loop` of `src/space_shooter.js`).
-/

/-- The clock state the `loop` callback reads and writes: the global
`last_time` (`null` before the first callback), the tick counter
`loop_count`, and the simulated world `α` that the per-tick
`update`/`draw` calls act on. -/
structure ClockState (α : Type) where
  last_time : Option ℚ
  loop_count : ℕ
  world : α

/-- Number of iterations of the `while (delta_time >
config.update_rate.seconds)` loop for a given initial `delta_time`:
each iteration consumes one fixed tick of size `1/60`. -/
def stepTicks (d : ℚ) : ℕ :=
  if d > update_rate_seconds then stepTicks (d - update_rate_seconds) + 1 else 0
termination_by (⌈d * 60⌉).toNat
decreasing_by
  have h60 : d * 60 > 1 := by
    have : d > 1 / 60 := by simpa [update_rate_seconds] using ‹d > update_rate_seconds›
    nlinarith
  have hc : (1 : ℤ) < ⌈d * 60⌉ := by
    exact_mod_cast Int.lt_ceil.mpr (by exact_mod_cast h60)
  have hsub : ⌈(d - update_rate_seconds) * 60⌉ = ⌈d * 60⌉ - 1 := by
    have : (d - update_rate_seconds) * 60 = d * 60 - 1 := by
      simp [update_rate_seconds]; ring
    rw [this]
    exact_mod_cast Int.ceil_sub_int (d * 60) 1
  rw [hsub]
  omega

/-- The `loop(curr_time)` callback: convert milliseconds to seconds,
default `last_time` on the first call, compute `delta_time`, and run the
`while` loop, which per iteration calls `update(update_rate_seconds)`
and `draw` (`tick` here), assigns `last_time = curr_time` and increments
`loop_count`.  When zero iterations run, `last_time` keeps its previous
value and the elapsed remainder stays pending; when at least one runs,
the sub-tick remainder is discarded. -/
def loop (tick : α → α) (st : ClockState α) (curr_ms : ℚ) : ClockState α :=
  let curr := curr_ms / 1000
  let last := match st.last_time with | none => curr | some t => t
  let n := stepTicks (curr - last)
  { last_time := some (if n = 0 then last else curr),
    loop_count := st.loop_count + n,
    world := tick^[n] st.world }

/-- Feed a list of callback timestamps (milliseconds) through `loop`. -/
def runLoop (tick : α → α) (st : ClockState α) (ts : List ℚ) : ClockState α :=
  ts.foldl (loop tick) st

/-!
Theorems.
-/

lemma clip_nonneg (v hi : ℚ) (h : 0 ≤ hi) : 0 ≤ clip v hi :=
  le_min (le_max_left 0 v) h

lemma clip_le (v hi : ℚ) : clip v hi ≤ hi :=
  min_le_right _ _

/-- Claim C4: for every entity variant and every `update(dt)` call, the
post-update position lies in `[0, canvas_width] × [0, canvas_height]`:
each variant ends its update by clipping both coordinates. -/
theorem update_clamp_invariant (dt : ℚ) (b : Body) :
    0 ≤ (entityUpdate dt b).body.position.x ∧
    (entityUpdate dt b).body.position.x ≤ canvas_width ∧
    0 ≤ (entityUpdate dt b).body.position.y ∧
    (entityUpdate dt b).body.position.y ≤ canvas_height := by
  have hw : (0 : ℚ) ≤ canvas_width := by norm_num [canvas_width]
  have hh : (0 : ℚ) ≤ canvas_height := by norm_num [canvas_height]
  cases hb : b.variant <;>
    simp only [entityUpdate, hb, playerUpdate, projectileUpdate, enemyUpdate,
      bossUpdate] <;>
    exact ⟨clip_nonneg _ _ hw, clip_le _ _, clip_nonneg _ _ hh, clip_le _ _⟩

/-- Claim C6: in `Player.update(dt)` the cooldown timer gains `dt`; a
projectile is fired, at the player's current (post-movement) position,
exactly when the action flag is held and the incremented timer has
reached `0.1`, in which case the timer resets to zero; otherwise no
projectile is fired and the timer keeps its incremented value. -/
theorem player_fire_control (dt : ℚ) (b : Body) :
    ((playerUpdate dt b).fired =
      if b.action_1 = true ∧ (1 : ℚ)/10 ≤ b.time_since_fired + dt then
        some (playerMovedPos b)
      else none) ∧
    ((playerUpdate dt b).body.time_since_fired =
      if b.action_1 = true ∧ (1 : ℚ)/10 ≤ b.time_since_fired + dt then 0
      else b.time_since_fired + dt) := by
  cases hA : b.action_1 <;>
    by_cases hT : (1 : ℚ)/10 ≤ b.time_since_fired + dt <;>
    simp [playerUpdate, hA, hT]

/-- Claim C7: `Player.update` advances each axis by the controller value
times `diag_speed` when both axes are non-zero, and times `speed`
otherwise — exactly this two-branch policy; the final position is that
moved position plus the base velocity motion, clipped. -/
theorem player_diag_policy (dt : ℚ) (b : Body) :
    (b.move_x ≠ 0 → b.move_y ≠ 0 →
      playerMovedPos b = ⟨b.position.x + b.move_x * b.diag_speed,
                          b.position.y + b.move_y * b.diag_speed⟩) ∧
    (b.move_x = 0 ∨ b.move_y = 0 →
      playerMovedPos b = ⟨b.position.x + b.move_x * b.speed,
                          b.position.y + b.move_y * b.speed⟩) ∧
    (playerUpdate dt b).body.position =
      ⟨clip ((playerMovedPos b).x + dt * b.velocity.x) canvas_width,
       clip ((playerMovedPos b).y + dt * b.velocity.y) canvas_height⟩ := by
  refine ⟨fun hx hy => ?_, fun h0 => ?_, ?_⟩
  · simp [playerMovedPos, hx, hy]
  · have : ¬ (b.move_x ≠ 0 ∧ b.move_y ≠ 0) := by tauto
    simp only [playerMovedPos, if_neg this]
  · simp [playerUpdate, baseMove]

/-- Witness for C7 at a concrete diagonal input. -/
theorem player_diag_policy_witness :
    playerMovedPos { variant := .player, position := ⟨150, 400⟩,
                     speed := 5, diag_speed := 7/2, move_x := 1, move_y := 1 }
      = ⟨150 + 1 * (7/2), 400 + 1 * (7/2)⟩ :=
  (player_diag_policy 0 _).1 (by norm_num) (by norm_num)

/-- Claim C9: collision resolution is deterministic — it is a function
of the registry snapshot, the removal queue and the counters alone
(randomness enters the program only through the spawn x-position chosen
in the Enemy/BossEnemy constructors, which `Collision_Handler.update`
never samples). -/
theorem collision_deterministic (w1 w2 : World)
    (he : w1.entities = w2.entities) (hq : w1.queued = w2.queued)
    (hk : w1.enemiesKilled = w2.enemiesKilled)
    (hb : w1.bossesKilled = w2.bossesKilled) :
    collisionUpdate w1 = collisionUpdate w2 := by
  cases w1
  cases w2
  simp_all

/-- Witness for C9 on two syntactically different but field-equal
worlds. -/
theorem collision_deterministic_witness :
    collisionUpdate ⟨[(0, { variant := .enemy })], [], 0, 0⟩ =
      collisionUpdate ⟨[(0 + 0, { variant := .enemy })], [] ++ [], 1 - 1, 0 * 5⟩ :=
  collision_deterministic _ _ (by norm_num) (by norm_num) (by norm_num)
    (by norm_num)

/-- Claim C10: with the default zero velocity, one `update(dt)` of a
Projectile moves it up by exactly `speed` and one `update(dt)` of an
Enemy or BossEnemy moves it down by exactly `speed` before clipping,
whatever `dt` is; the clipped coordinate is then applied to that
dt-independent target. -/
theorem vertical_step_dt_independent (dt : ℚ) (b : Body)
    (h : b.velocity = ⟨0, 0⟩) :
    projectileRawPos dt b = ⟨b.position.x, b.position.y - b.speed⟩ ∧
    enemyRawPos dt b = ⟨b.position.x, b.position.y + b.speed⟩ ∧
    bossRawPos dt b = ⟨b.position.x, b.position.y + b.speed⟩ ∧
    (projectileUpdate dt b).body.position.y =
      clip (b.position.y - b.speed) canvas_height ∧
    (enemyUpdate dt b).body.position.y =
      clip (b.position.y + b.speed) canvas_height ∧
    (bossUpdate dt b).body.position.y =
      clip (b.position.y + b.speed) canvas_height := by
  simp [projectileRawPos, enemyRawPos, bossRawPos, baseMove, h,
    projectileUpdate, enemyUpdate, bossUpdate]

/-- Witness for C10 on a concrete projectile state and `dt = 17`. -/
theorem vertical_step_dt_independent_witness :
    projectileRawPos 17 { variant := .projectile, position := ⟨150, 400⟩,
                          speed := 10 }
      = ⟨150, 400 - 10⟩ :=
  (vertical_step_dt_independent 17 _ rfl).1

/-- Ordering on optional healths: defined exactly on matching
domains. -/
def optLE : Option ℚ → Option ℚ → Prop
  | none, none => True
  | some a, some b => a ≤ b
  | _, _ => False

lemma optLE_refl : ∀ o : Option ℚ, optLE o o := by
  intro o
  cases o <;> simp [optLE]

lemma optLE_trans : ∀ {a b c : Option ℚ}, optLE a b → optLE b c → optLE a c := by
  intro a b c h1 h2
  cases a <;> cases b <;> cases c <;> simp [optLE] at * <;> linarith

/-- Pointwise health comparison of two registry states: same ids, each
health in `w'` at most the health in `w`. -/
def HealthsLE (w' w : World) : Prop :=
  ∀ i, optLE (healthAt w' i) (healthAt w i)

lemma healthsLE_refl (w : World) : HealthsLE w w := fun _ => optLE_refl _

lemma healthsLE_trans {a b c : World} (h1 : HealthsLE a b) (h2 : HealthsLE b c) :
    HealthsLE a c := fun i => optLE_trans (h1 i) (h2 i)

lemma healthsLE_of_entities_eq {w' w : World} (h : w'.entities = w.entities) :
    HealthsLE w' w := by
  intro i
  unfold healthAt
  rw [h]
  exact optLE_refl _

lemma findEnt_map_damage (i : ℕ) (d : ℚ) (j : ℕ) :
    ∀ es : List (ℕ × Body),
      findEnt j (es.map fun p =>
          if p.1 = i then (p.1, { p.2 with health := p.2.health - d }) else p)
        = (findEnt j es).map fun b =>
            if j = i then { b with health := b.health - d } else b := by
  intro es
  induction es with
  | nil => simp [findEnt]
  | cons p t ih =>
    obtain ⟨k, b⟩ := p
    rw [List.map_cons]
    by_cases hki : k = i
    · subst hki
      rw [show (if ((k, b) : ℕ × Body).1 = k then
            (((k, b) : ℕ × Body).1, { b with health := b.health - d })
          else (k, b)) = (k, { b with health := b.health - d }) from by simp]
      by_cases hk : j = k
      · subst hk
        simp [findEnt]
      · simp [findEnt, hk, ih]
    · rw [show (if ((k, b) : ℕ × Body).1 = i then
            (((k, b) : ℕ × Body).1, { b with health := b.health - d })
          else (k, b)) = (k, b) from by simp [hki]]
      by_cases hk : j = k
      · subst hk
        simp [findEnt, hki]
      · simp [findEnt, hk, ih]

lemma healthsLE_damage (w : World) (i : ℕ) (d : ℚ) (hd : 0 ≤ d) :
    HealthsLE (damage w i d) w := by
  intro j
  unfold healthAt damage
  simp only
  rw [findEnt_map_damage]
  cases hf : findEnt j w.entities with
  | none => simp [optLE]
  | some b =>
    by_cases hj : j = i <;> simp [optLE, hj] <;> linarith

lemma healthsLE_rulePlayer (w : World) (i : ℕ) (e1 e2 : Body) :
    HealthsLE (rulePlayer w i e1 e2) w := by
  simp only [rulePlayer]
  split_ifs <;>
    first
      | exact healthsLE_refl _
      | exact healthsLE_damage _ _ _ (by norm_num)
      | exact healthsLE_trans (healthsLE_damage _ _ _ (by norm_num))
          (healthsLE_damage _ _ _ (by norm_num))

lemma healthsLE_ruleEnemy (w : World) (i : ℕ) (e1 e2 : Body) :
    HealthsLE (ruleEnemy w i e1 e2) w := by
  simp only [ruleEnemy]
  split_ifs <;>
    first
      | exact healthsLE_refl _
      | exact healthsLE_damage _ _ _ (by norm_num)
      | exact healthsLE_trans (healthsLE_of_entities_eq rfl)
          (healthsLE_damage _ _ _ (by norm_num))

lemma healthsLE_ruleBossFirst (w : World) (i j : ℕ) (e1 e2 : Body) :
    HealthsLE (ruleBossFirst w i j e1 e2) w := by
  simp only [ruleBossFirst]
  split_ifs <;>
    first
      | exact healthsLE_refl _
      | exact healthsLE_trans (healthsLE_of_entities_eq rfl)
          (healthsLE_damage _ _ _ (by norm_num))

lemma healthsLE_ruleBossSecond (w : World) (i : ℕ) (e1 e2 : Body) :
    HealthsLE (ruleBossSecond w i e1 e2) w := by
  simp only [ruleBossSecond]
  split_ifs <;>
    first
      | exact healthsLE_refl _
      | exact healthsLE_damage _ _ _ (by norm_num)
      | exact healthsLE_trans (healthsLE_of_entities_eq rfl)
          (healthsLE_damage _ _ _ (by norm_num))

lemma healthsLE_resolvePair (w : World) (i j : ℕ) :
    HealthsLE (resolvePair w i j) w := by
  unfold resolvePair
  split
  · split_ifs
    · exact healthsLE_trans (healthsLE_ruleBossSecond _ _ _ _)
        (healthsLE_trans (healthsLE_ruleBossFirst _ _ _ _ _)
          (healthsLE_trans (healthsLE_ruleEnemy _ _ _ _)
            (healthsLE_rulePlayer _ _ _ _)))
    · exact healthsLE_refl _
  · exact healthsLE_refl _

lemma healthsLE_foldl {f : World → ℕ → World}
    (hf : ∀ w i, HealthsLE (f w i) w) :
    ∀ (l : List ℕ) (w : World), HealthsLE (l.foldl f w) w := by
  intro l
  induction l with
  | nil => intro w; exact healthsLE_refl w
  | cons i t ih => intro w; exact healthsLE_trans (ih (f w i)) (hf w i)

lemma healthsLE_collisionUpdate (w : World) : HealthsLE (collisionUpdate w) w := by
  unfold collisionUpdate
  exact healthsLE_foldl
    (fun w1 i => healthsLE_foldl (fun w2 j => healthsLE_resolvePair w2 i j) _ w1)
    _ w

lemma findEnt_deleteId (i j : ℕ) :
    ∀ es : List (ℕ × Body),
      findEnt j (deleteId es i) = if j = i then none else findEnt j es := by
  intro es
  induction es with
  | nil => by_cases hj : j = i <;> simp [deleteId, findEnt, hj]
  | cons p t ih =>
    obtain ⟨k, b⟩ := p
    by_cases hk : k = i
    · subst hk
      rw [show deleteId ((k, b) :: t) k = deleteId t k from by
        simp [deleteId]]
      rw [ih]
      by_cases hj : j = k <;> simp [hj, findEnt]
    · rw [show deleteId ((k, b) :: t) i = (k, b) :: deleteId t i from by
        simp [deleteId, hk]]
      by_cases hj : j = k
      · subst hj
        simp [findEnt, hk]
      · simp [findEnt, hj, ih]

lemma findEnt_foldl_deleteId (j : ℕ) :
    ∀ (q : List ℕ) (es : List (ℕ × Body)),
      findEnt j (q.foldl deleteId es) = if j ∈ q then none else findEnt j es := by
  intro q
  induction q with
  | nil => intro es; simp
  | cons i t ih =>
    intro es
    rw [List.foldl_cons, ih, findEnt_deleteId]
    by_cases hm : j ∈ t <;> by_cases hj : j = i <;> simp [hm, hj]

/-- Claim C5: `isDead()` is the pure test `health <= 0`; entity updates
never change health; collision resolution only ever lowers healths; and
the removal flush preserves the record of every surviving entity, so no
per-tick operation increases any entity's health. -/
theorem health_monotone_isDead :
    (∀ b : Body, b.isDead = true ↔ b.health ≤ 0) ∧
    (∀ (dt : ℚ) (b : Body), (entityUpdate dt b).body.health = b.health) ∧
    (∀ w : World, HealthsLE (collisionUpdate w) w) ∧
    (∀ (w : World) (i : ℕ) (b : Body),
      findEnt i (flushRemovals w).entities = some b →
      findEnt i w.entities = some b) := by
  refine ⟨fun b => by simp [Body.isDead], fun dt b => ?_,
    healthsLE_collisionUpdate, fun w i b h => ?_⟩
  · cases hb : b.variant <;>
      simp [entityUpdate, hb, playerUpdate, projectileUpdate, enemyUpdate,
        bossUpdate]
  · unfold flushRemovals at h
    simp only at h
    rw [findEnt_foldl_deleteId] at h
    by_cases hm : i ∈ w.queued
    · rw [if_pos hm] at h
      cases h
    · rwa [if_neg hm] at h

/-- Witness for C5's flush conjunct on a concrete world whose queue
holds an id that is not the surviving entity's. -/
theorem health_monotone_isDead_witness :
    findEnt 0 (World.entities ⟨[(0, { variant := .enemy })], [1], 0, 0⟩)
      = some { variant := .enemy } :=
  health_monotone_isDead.2.2.2 ⟨[(0, { variant := .enemy })], [1], 0, 0⟩ 0 _
    (by simp [flushRemovals, deleteId, findEnt])

lemma deleteId_idem (es : List (ℕ × Body)) (i : ℕ) :
    deleteId (deleteId es i) i = deleteId es i := by
  unfold deleteId
  rw [List.filter_filter]
  simp

lemma deleteId_of_not_mem (es : List (ℕ × Body)) (i : ℕ)
    (h : i ∉ es.map Prod.fst) : deleteId es i = es := by
  unfold deleteId
  apply List.filter_eq_self.mpr
  intro a ha
  simp only [decide_eq_true_eq]
  intro hai
  exact h (hai ▸ List.mem_map_of_mem Prod.fst ha)

lemma length_deleteId (i : ℕ) :
    ∀ es : List (ℕ × Body), (es.map Prod.fst).Nodup →
      i ∈ es.map Prod.fst → (deleteId es i).length + 1 = es.length := by
  intro es
  induction es with
  | nil => intro _ hm; simp at hm
  | cons p t ih =>
    intro hn hm
    obtain ⟨k, b⟩ := p
    simp only [List.map_cons, List.nodup_cons] at hn
    simp only [List.map_cons, List.mem_cons] at hm
    by_cases hik : i = k
    · subst hik
      rw [show deleteId ((i, b) :: t) i = deleteId t i from by simp [deleteId]]
      rw [deleteId_of_not_mem t i hn.1]
      simp
    · have hmt : i ∈ t.map Prod.fst := by tauto
      rw [show deleteId ((k, b) :: t) i = (k, b) :: deleteId t i from by
        simp [deleteId, List.filter_cons,
          show ¬ (k = i) from fun h => hik h.symm]]
      simp only [List.length_cons]
      rw [← ih hn.2 hmt]

/-- Claim C8: removal is two-phase and idempotent — `remove()` only
appends the id to the pending queue without touching the registry; the
flush deletes each queued id and empties the queue; removing an id
twice in one tick flushes to the same registry as removing it once,
and with distinct registry keys the double removal still deletes
exactly one entry. -/
theorem removal_two_phase (w : World) (i : ℕ) :
    (bodyRemove w i).entities = w.entities ∧
    (bodyRemove w i).queued = w.queued ++ [i] ∧
    (flushRemovals (bodyRemove (bodyRemove w i) i)).entities =
      (flushRemovals (bodyRemove w i)).entities ∧
    (flushRemovals w).queued = [] ∧
    ((w.entities.map Prod.fst).Nodup → i ∈ w.entities.map Prod.fst →
      w.queued = [] →
      (flushRemovals (bodyRemove (bodyRemove w i) i)).entities.length + 1 =
        w.entities.length) := by
  refine ⟨rfl, rfl, ?_, rfl, fun hn hm hq => ?_⟩
  · show ((w.queued ++ [i]) ++ [i]).foldl deleteId w.entities =
      (w.queued ++ [i]).foldl deleteId w.entities
    simp only [List.foldl_append, List.foldl_cons, List.foldl_nil]
    exact deleteId_idem _ i
  · show (((w.queued ++ [i]) ++ [i]).foldl deleteId w.entities).length + 1 =
      w.entities.length
    rw [hq]
    simp only [List.nil_append, List.singleton_append, List.foldl_cons,
      List.foldl_nil]
    rw [deleteId_idem]
    exact length_deleteId i w.entities hn hm

/-- Witness for C8 on a two-entity registry with id 0 removed twice. -/
theorem removal_two_phase_witness :
    (flushRemovals (bodyRemove (bodyRemove
        ⟨[(0, { variant := .player }), (1, { variant := .enemy })], [], 0, 0⟩
      0) 0)).entities.length + 1 =
    (World.entities
        ⟨[(0, { variant := .player }), (1, { variant := .enemy })], [], 0, 0⟩).length :=
  (removal_two_phase _ 0).2.2.2.2 (by simp) (by simp) rfl


lemma resolvePair_self (w : World) (i : ℕ) : resolvePair w i i = w := by
  unfold resolvePair
  split
  · split_ifs with hc
    · exact absurd rfl hc.1
    · rfl
  · rfl

/-- The BossEnemy of the boss-hit scenario: constructor size 25×40,
health parameter `h` (the constructor sets 1000), spawn position fixed
at (150, 100). -/
def bossBody (h : ℚ) : Body :=
  { variant := .bossEnemy, position := ⟨150, 100⟩, size := ⟨25, 40⟩,
    health := h, speed := 2 }

/-- The Projectile of the boss-hit scenario: constructor size 10×20,
fired so that it exactly overlaps the boss. -/
def projBody : Body :=
  { variant := .projectile, position := ⟨150, 100⟩, size := ⟨10, 20⟩,
    speed := 10 }

/-- Registry snapshot for the boss-hit scenario: one BossEnemy (id 0)
overlapping one Projectile (id 1), empty queue, zeroed counters. -/
def bossHitWorld (h : ℚ) : World :=
  ⟨[(0, bossBody h), (1, projBody)], [], 0, 0⟩

/-- The boss-hit scenario after the collision pass: boss health down by
7 + 100, the projectile id queued once. -/
def bossHitWorldAfter (h : ℚ) : World :=
  ⟨[(0, bossBody (h - 7 - 100)), (1, projBody)], [1], 0, 0⟩

lemma bossHit_step1 (h : ℚ) (hh : 107 < h) :
    resolvePair (bossHitWorld h) 0 1 = bossHitWorldAfter h := by
  have h1 : ¬ ((h : ℚ) - 7 ≤ 0) := by linarith
  have h2 : ¬ ((h : ℚ) - 7 - 100 ≤ 0) := by linarith
  have hcond : (0 : ℕ) ≠ 1 ∧ overlaps (bossBody h) projBody :=
    ⟨by norm_num, by norm_num [overlaps, bossBody, projBody]⟩
  have e0 : resolvePair (bossHitWorld h) 0 1 =
      if (0 : ℕ) ≠ 1 ∧ overlaps (bossBody h) projBody then
        ruleBossSecond (ruleBossFirst (ruleEnemy
          (rulePlayer (bossHitWorld h) 0 (bossBody h) projBody)
          0 (bossBody h) projBody) 0 1 (bossBody h) projBody)
          0 (bossBody h) projBody
      else bossHitWorld h := rfl
  rw [e0, if_pos hcond]
  rw [show rulePlayer (bossHitWorld h) 0 (bossBody h) projBody
      = bossHitWorld h from by simp [rulePlayer, bossBody]]
  rw [show ruleEnemy (bossHitWorld h) 0 (bossBody h) projBody
      = bossHitWorld h from by simp [ruleEnemy, bossBody]]
  have hd7 : damage (bossHitWorld h) 0 7 =
      ⟨[(0, bossBody (h - 7)), (1, projBody)], [], 0, 0⟩ := by
    simp [damage, bossHitWorld, bossBody, projBody]
  have hbf : ruleBossFirst (bossHitWorld h) 0 1 (bossBody h) projBody
      = ⟨[(0, bossBody (h - 7)), (1, projBody)], [1], 0, 0⟩ := by
    simp only [ruleBossFirst]
    rw [if_pos ⟨rfl, rfl⟩, hd7]
    rw [show (healthAt (⟨[(0, bossBody (h - 7)), (1, projBody)], [], 0, 0⟩ :
        World) 0).getD 0 = h - 7 from rfl]
    rw [if_neg h1]
    rfl
  rw [hbf]
  have hd100 : damage ⟨[(0, bossBody (h - 7)), (1, projBody)], [1], 0, 0⟩
      0 100 = ⟨[(0, bossBody (h - 7 - 100)), (1, projBody)], [1], 0, 0⟩ := by
    simp [damage, bossBody, projBody]
  simp only [ruleBossSecond]
  rw [if_pos ⟨rfl, rfl⟩, hd100]
  rw [show (healthAt (⟨[(0, bossBody (h - 7 - 100)), (1, projBody)], [1], 0,
      0⟩ : World) 0).getD 0 = h - 7 - 100 from rfl]
  rw [if_neg h2]
  rfl

lemma bossHit_step2 (h : ℚ) :
    resolvePair (bossHitWorldAfter h) 1 0 = bossHitWorldAfter h := by
  have e0 : resolvePair (bossHitWorldAfter h) 1 0 =
      if (1 : ℕ) ≠ 0 ∧ overlaps projBody (bossBody (h - 7 - 100)) then
        ruleBossSecond (ruleBossFirst (ruleEnemy
          (rulePlayer (bossHitWorldAfter h) 1 projBody (bossBody (h - 7 - 100)))
          1 projBody (bossBody (h - 7 - 100))) 1 0 projBody
          (bossBody (h - 7 - 100))) 1 projBody (bossBody (h - 7 - 100))
      else bossHitWorldAfter h := rfl
  rw [e0]
  rw [show rulePlayer (bossHitWorldAfter h) 1 projBody (bossBody (h - 7 - 100))
      = bossHitWorldAfter h from by simp [rulePlayer, projBody]]
  rw [show ruleEnemy (bossHitWorldAfter h) 1 projBody (bossBody (h - 7 - 100))
      = bossHitWorldAfter h from by simp [ruleEnemy, projBody]]
  rw [show ruleBossFirst (bossHitWorldAfter h) 1 0 projBody
      (bossBody (h - 7 - 100)) = bossHitWorldAfter h from by
    simp [ruleBossFirst, projBody]]
  rw [show ruleBossSecond (bossHitWorldAfter h) 1 projBody
      (bossBody (h - 7 - 100)) = bossHitWorldAfter h from by
    simp [ruleBossSecond, projBody]]
  simp

lemma collisionUpdate_bossHitWorld (h : ℚ) (hh : 107 < h) :
    collisionUpdate (bossHitWorld h) = bossHitWorldAfter h := by
  show List.foldl _ (bossHitWorld h) _ = _
  have hids : (bossHitWorld h).entities.map Prod.fst = [0, 1] := rfl
  rw [hids]
  simp only [List.foldl_cons, List.foldl_nil]
  rw [show resolvePair (bossHitWorld h) 0 0 = bossHitWorld h from
    resolvePair_self _ 0]
  rw [bossHit_step1 h hh, bossHit_step2]
  exact resolvePair_self _ 1

/-- Claim C1 (amended): a collision pass over one BossEnemy overlapping
exactly one Projectile runs BOTH boss/projectile rule blocks of
`Collision_Handler.update`, so a surviving boss loses 107 health — 7
from the first block plus 100 from the duplicated second block — is not
enqueued for removal, and the Projectile is enqueued exactly once;
neither kill counter moves. -/
theorem boss_projectile_hit_amended (h : ℚ) (hh : 107 < h) :
    healthAt (collisionUpdate (bossHitWorld h)) 0 = some (h - 107) ∧
    (collisionUpdate (bossHitWorld h)).queued = [1] ∧
    (collisionUpdate (bossHitWorld h)).enemiesKilled = 0 ∧
    (collisionUpdate (bossHitWorld h)).bossesKilled = 0 := by
  rw [collisionUpdate_bossHitWorld h hh]
  refine ⟨?_, rfl, rfl, rfl⟩
  rw [show healthAt (bossHitWorldAfter h) 0 = some (h - 7 - 100) from rfl]
  congr 1
  ring

/-- Witness for C1's amended theorem at the constructor health 1000. -/
theorem boss_projectile_hit_witness :
    healthAt (collisionUpdate (bossHitWorld 1000)) 0 = some 893 ∧
    (collisionUpdate (bossHitWorld 1000)).queued = [1] := by
  have hthm := boss_projectile_hit_amended 1000 (by norm_num)
  refine ⟨?_, hthm.2.1⟩
  rw [hthm.1]
  norm_num

/-- Counterexample to C1 as stated: at boss health 1000 the collision
pass leaves health 893, not the claimed 993 = 1000 − 7. -/
theorem boss_projectile_hit_counterexample :
    healthAt (collisionUpdate (bossHitWorld 1000)) 0 = some 893 ∧
    healthAt (collisionUpdate (bossHitWorld 1000)) 0 ≠ some (1000 - 7) := by
  rw [collisionUpdate_bossHitWorld 1000 (by norm_num)]
  rw [show healthAt (bossHitWorldAfter 1000) 0
      = some ((1000 : ℚ) - 7 - 100) from rfl]
  norm_num

lemma countEnemies_append (l1 l2 : List Spawn) :
    countEnemies (l1 ++ l2) = countEnemies l1 + countEnemies l2 :=
  List.countP_append _ _ _

lemma countBosses_append (l1 l2 : List Spawn) :
    countBosses (l1 ++ l2) = countBosses l1 + countBosses l2 :=
  List.countP_append _ _ _

lemma spawnerUpdate_one (T : ℚ) (flag : Bool) (timer : ℕ) :
    spawnerUpdate T ⟨1, T, 0, flag, timer⟩ =
      if flag then (⟨1, T, 0, false, timer⟩, [.boss 1, .boss 2])
      else if timer + 1 = 10 then (⟨1, T, 0, true, 0⟩, [.enemy 2])
      else (⟨1, T, 0, false, timer + 1⟩, [.enemy 2]) := by
  cases flag <;> by_cases ht : timer + 1 = 10 <;>
    simp [spawnerUpdate, spawnWaveUnits, spawnUnit, ht]

lemma runSpawner_fresh (T : ℚ) :
    ∀ n : ℕ,
      (runSpawner n (mkSpawner 1 T)).1 =
        ⟨1, T, 0, decide (n % 11 = 10), if n % 11 = 10 then 0 else n % 11⟩ ∧
      countEnemies (runSpawner n (mkSpawner 1 T)).2 = n - n / 11 ∧
      countBosses (runSpawner n (mkSpawner 1 T)).2 = 2 * (n / 11) := by
  intro n
  induction n with
  | zero =>
    refine ⟨?_, rfl, rfl⟩
    simp [runSpawner, mkSpawner]
  | succ n ih =>
    obtain ⟨ihs, ihe, ihb⟩ := ih
    rcases hrs : runSpawner n (mkSpawner 1 T) with ⟨s1, l1⟩
    rw [hrs] at ihs ihe ihb
    simp only at ihs ihe ihb
    subst ihs
    simp only [runSpawner, hrs]
    rw [spawnerUpdate_one]
    by_cases hmod : n % 11 = 10
    · have h0 : (n + 1) % 11 = 0 := by omega
      have hd : (n + 1) / 11 = n / 11 + 1 := by omega
      simp only [hmod, decide_eq_true_eq, if_pos, reduceIte,
        countEnemies_append, countBosses_append]
      refine ⟨?_, ?_, ?_⟩
      · simp [h0]
      · rw [show countEnemies [Spawn.boss 1, Spawn.boss 2] = 0 from rfl]
        omega
      · rw [show countBosses [Spawn.boss 1, Spawn.boss 2] = 2 from rfl]
        omega
    · have hflag : decide (n % 11 = 10) = false := by simp [hmod]
      rw [hflag]
      simp only [Bool.false_eq_true, if_false, reduceIte]
      have htimer : (if n % 11 = 10 then 0 else n % 11) = n % 11 := by
        simp [hmod]
      rw [htimer]
      by_cases hmod9 : n % 11 = 9
      · have h10 : (n + 1) % 11 = 10 := by omega
        have hd : (n + 1) / 11 = n / 11 := by omega
        rw [if_pos (by omega : n % 11 + 1 = 10)]
        simp only [countEnemies_append, countBosses_append]
        refine ⟨?_, ?_, ?_⟩
        · simp [h10]
        · rw [show countEnemies [Spawn.enemy 2] = 1 from rfl]
          omega
        · rw [show countBosses [Spawn.enemy 2] = 0 from rfl]
          omega
      · have h1 : (n + 1) % 11 = n % 11 + 1 := by omega
        have h1ne : ¬ ((n + 1) % 11 = 10) := by omega
        have hd : (n + 1) / 11 = n / 11 := by omega
        rw [if_neg (by omega : ¬ (n % 11 + 1 = 10))]
        simp only [countEnemies_append, countBosses_append]
        refine ⟨?_, ?_, ?_⟩
        · simp [h1, h1ne, hmod9]
        · rw [show countEnemies [Spawn.enemy 2] = 1 from rfl]
          omega
        · rw [show countBosses [Spawn.enemy 2] = 0 from rfl]
          omega

/-- Claim C3 (amended): the spawner's per-unit mechanics are as claimed
(timer accumulation and reset, one-shot boss flag, threshold 10), but
the counter reaches 10 only after the 10th regular emission and the
armed flag is consumed on the NEXT emission, so boss waves are the
11th, 22nd, … waves: with the source's 1 enemy per wave, after `n`
waves exactly `n − n/11` regular enemies and `2·(n/11)` boss enemies
(spawned in pairs) have been emitted — not a boss on every 10th wave. -/
theorem spawner_cadence_amended (T : ℚ) (n : ℕ) :
    countEnemies (runSpawner n (mkSpawner 1 T)).2 = n - n / 11 ∧
    countBosses (runSpawner n (mkSpawner 1 T)).2 = 2 * (n / 11) :=
  ⟨(runSpawner_fresh T n).2.1, (runSpawner_fresh T n).2.2⟩

/-- Counterexample to C3 as stated: with the source configuration
(1 enemy per wave, 0.55 s between waves) the first 10 waves emit 10
regular enemies and no boss at all — the 10th wave is not replaced by a
boss emission. -/
theorem spawner_cadence_counterexample :
    countEnemies (runSpawner 10 (mkSpawner 1 (11/20))).2 = 10 ∧
    countBosses (runSpawner 10 (mkSpawner 1 (11/20))).2 = 0 := by
  have h := runSpawner_fresh (11/20) 10
  refine ⟨?_, ?_⟩
  · rw [h.2.1]
  · rw [h.2.2]

lemma stepTicks_eq_aux :
    ∀ (k : ℕ) (d : ℚ), (⌈d * 60⌉).toNat ≤ k →
      stepTicks d = (⌈d * 60⌉ - 1).toNat := by
  intro k
  induction k with
  | zero =>
    intro d hd
    have hc : ⌈d * 60⌉ ≤ 0 := by omega
    have hd60 : d * 60 ≤ ((0 : ℤ) : ℚ) := Int.ceil_le.mp hc
    have hdle : d ≤ update_rate_seconds := by
      rw [update_rate_seconds]
      push_cast at hd60
      linarith
    rw [stepTicks, if_neg (not_lt.mpr hdle)]
    omega
  | succ k ih =>
    intro d hd
    by_cases h : d > update_rate_seconds
    · have h60 : (1 : ℚ) < d * 60 := by
        rw [update_rate_seconds] at h
        linarith
      have hc2 : (1 : ℤ) < ⌈d * 60⌉ := Int.lt_ceil.mpr (by push_cast; linarith)
      have hsub : ⌈(d - update_rate_seconds) * 60⌉ = ⌈d * 60⌉ - 1 := by
        rw [show (d - update_rate_seconds) * 60 = d * 60 - (1 : ℤ) by
          rw [update_rate_seconds]
          push_cast
          ring]
        exact Int.ceil_sub_int (d * 60) 1
      rw [stepTicks, if_pos h, ih (d - update_rate_seconds) (by omega)]
      rw [hsub]
      omega
    · rw [stepTicks, if_neg h]
      have hdle : d ≤ update_rate_seconds := not_lt.mp h
      have hle : ⌈d * 60⌉ ≤ 1 := by
        apply Int.ceil_le.mpr
        rw [update_rate_seconds] at hdle
        push_cast
        linarith
      omega

lemma stepTicks_eq (d : ℚ) : stepTicks d = (⌈d * 60⌉ - 1).toNat :=
  stepTicks_eq_aux _ d le_rfl

/-- Claim C2 (amended): the `loop` callback does not maintain a leftover
accumulator across callbacks.  From previous time `l` (seconds) and a
callback at `t` milliseconds it consumes `max(0, ⌈elapsed/tick⌉ − 1)`
fixed ticks (note `⌈·⌉ − 1`, from the strict `>` while-condition), and
it resets `last_time` to the callback time exactly when at least one
tick ran — discarding the sub-tick remainder — keeping `l` otherwise; so
the total over a callback sequence is in general NOT
`⌊total elapsed / tick⌋`. -/
theorem loop_accumulator_amended {α : Type} (f : α → α) (l : ℚ) (c : ℕ)
    (w : α) (t : ℚ) :
    (loop f ⟨some l, c, w⟩ t).loop_count
      = c + (⌈(t / 1000 - l) / update_rate_seconds⌉ - 1).toNat ∧
    (loop f ⟨some l, c, w⟩ t).last_time
      = some (if (⌈(t / 1000 - l) / update_rate_seconds⌉ - 1).toNat = 0
              then l else t / 1000) := by
  have hdiv : (t / 1000 - l) / update_rate_seconds = (t / 1000 - l) * 60 := by
    rw [update_rate_seconds]
    ring
  rw [hdiv]
  unfold loop
  simp only
  rw [stepTicks_eq]
  exact ⟨rfl, rfl⟩

/-- Counterexample to C2 as stated: callbacks at 0 ms, 25 ms and 50 ms
elapse 1/20 s in total, i.e. ⌊(1/20)/(1/60)⌋ = 3 full ticks of the
claimed accumulator, but the loop consumes only 2 ticks, because each
tick-consuming callback discards its sub-tick remainder. -/
theorem loop_accumulator_counterexample :
    (runLoop id ⟨none, 0, ()⟩ [0, 25, 50]).loop_count = 2 ∧
    ⌊(((50 : ℚ) - 0) / 1000) / update_rate_seconds⌋ = 3 := by
  constructor
  · have h0 : stepTicks (0 : ℚ) = 0 := by
      rw [stepTicks_eq]
      norm_num
    have h1 : stepTicks ((25 : ℚ) / 1000) = 1 := by
      rw [stepTicks_eq]
      rw [show ((25 : ℚ) / 1000) * 60 = 3 / 2 by norm_num]
      rw [show ⌈(3 : ℚ) / 2⌉ = 2 by
        rw [Int.ceil_eq_iff]
        norm_num]
      decide
    have h2 : stepTicks ((50 : ℚ) / 1000 - 25 / 1000) = 1 := by
      rw [stepTicks_eq]
      rw [show ((50 : ℚ) / 1000 - 25 / 1000) * 60 = 3 / 2 by norm_num]
      rw [show ⌈(3 : ℚ) / 2⌉ = 2 by
        rw [Int.ceil_eq_iff]
        norm_num]
      decide
    have s1 : loop (id : Unit → Unit) ⟨none, 0, ()⟩ 0 = ⟨some 0, 0, ()⟩ := by
      unfold loop
      simp [h0]
    have s2 : loop (id : Unit → Unit) ⟨some 0, 0, ()⟩ 25
        = ⟨some (25 / 1000), 1, ()⟩ := by
      unfold loop
      simp [h1]
    have s3 : loop (id : Unit → Unit) ⟨some (25 / 1000), 1, ()⟩ 50
        = ⟨some (50 / 1000), 2, ()⟩ := by
      unfold loop
      simp [h2]
    show (loop id (loop id (loop (id : Unit → Unit) ⟨none, 0, ()⟩ 0) 25) 50).loop_count = 2
    rw [s1, s2, s3]
  · rw [update_rate_seconds]
    rw [show (((50 : ℚ) - 0) / 1000) / (1 / 60) = 3 by norm_num]
    norm_num
